import Mathlib

/-!
# cri-o `internal/config/cgmgr/systemd.go`: the systemd cgroup manager

A shallow embedding of `SystemdManager` and of the Go standard-library string
functions it relies on, followed by the properties of the manager's path
computations, admission flow and supervisor relocation.

Modelling conventions.

* A Go `string` is a Lean `String`.  The byte-level Go operations used here
  (`strings.HasSuffix`, the scans for the separator byte `/`) act on the list of
  characters; for well-formed UTF-8 this is the same function, because the byte
  `0x2F` occurs only as the character `/` and a well-formed suffix starts at a
  character boundary.
* A Go `error` value is a `GoError`; the `error` result of a function is an
  `Option GoError`, with `none` for `nil`.
* The collaborators that live outside this file of the repository
  (`systemd.ExpandSlice`, `verifyCgroupHasEnoughMemory`,
  `utils.RunUnderSystemdScope`, `filepath.Join`, the `%q` verb) are the fields of
  an environment `Env`.  Every operation returns, next to its Go results, the
  list of calls it made to the effectful collaborators, in order.
* The `logrus.Debugf` calls are left out, and so are `Name` and
  `CreateSandboxCgroup`, which only forward to declarations of other files.
-/

namespace Cgmgr

set_option maxRecDepth 20000

/-! ## Errors -/

/-- A Go `error`: either a plain message (`fmt.Errorf` without `%w`,
`errors.New`), or a cause annotated with a message (`errors.Wrapf` of
`github.com/pkg/errors`). -/
inductive GoError where
  | errorString (s : String) : GoError
  | withMessage (cause : GoError) (msg : String) : GoError
deriving DecidableEq, Repr

/-- The method `Error()`: a plain error prints its message, an annotated one
prints `msg + ": " + cause.Error()`. -/
def GoError.Error : GoError → String
  | GoError.errorString s => s
  | GoError.withMessage cause msg => msg ++ ": " ++ cause.Error

/-- The function `errors.Cause`: strip every annotation. -/
def GoError.Cause : GoError → GoError
  | GoError.errorString s => GoError.errorString s
  | GoError.withMessage cause _ => cause.Cause

/-- The call `errors.Wrapf(err, format, args...)` for a non-nil `err`, with the
already formatted message. -/
def Wrapf (err : GoError) (msg : String) : GoError :=
  GoError.withMessage err msg

/-! ## Go string and path functions -/

/-- The function `strings.HasSuffix`:
`len(s) >= len(suffix) && s[len(s)-len(suffix):] == suffix`. -/
def HasSuffix (s suffix : String) : Bool :=
  decide (suffix.data.length ≤ s.data.length) &&
    decide (s.data.drop (s.data.length - suffix.data.length) = suffix.data)

/-- The function `strings.LastIndexByte`: the index of the last occurrence of `c`
in `s`, or `-1`. -/
def LastIndexByte : List Char → Char → Int
  | [], _ => -1
  | x :: xs, c =>
    let r := LastIndexByte xs c
    if 0 ≤ r then r + 1 else if x = c then 0 else -1

/-- The loop `for len(path) > 0 && path[len(path)-1] == '/' { path = path[0 : len(path)-1] }`. -/
def stripTrailingSlashes (path : List Char) : List Char :=
  path.rdropWhile (fun c => c == '/')

/-- The function `path.Base`. -/
def pathBase (path : String) : String :=
  if path = "" then "."
  else
    -- Strip trailing slashes.
    let p1 := stripTrailingSlashes path.data
    -- Find the last element.
    let i := LastIndexByte p1 '/'
    let p2 := if 0 ≤ i then p1.drop (i + 1).toNat else p1
    -- If empty now, it had only slashes.
    if p2 = [] then "/" else String.mk p2

/-- The function `os.IsPathSeparator` on Linux. -/
def IsPathSeparator (c : Char) : Bool := c == '/'

/-- The function `filepath.VolumeName` on Linux: always empty. -/
def VolumeName (_path : List Char) : List Char := []

/-- The scan `i := len(path) - 1; for i >= 0 && !os.IsPathSeparator(path[i]) { i-- }`
of `filepath.Base`: the index of the last separator, or `-1`. -/
def lastSeparator : List Char → Int
  | [] => -1
  | x :: xs =>
    let r := lastSeparator xs
    if 0 ≤ r then r + 1 else if IsPathSeparator x then 0 else -1

/-- The function `filepath.Base` on Linux (the file is built for Linux only). -/
def filepathBase (path : String) : String :=
  if path = "" then "."
  else
    let p1 := path.data.rdropWhile IsPathSeparator
    let p2 := p1.drop (VolumeName p1).length
    let i := lastSeparator p2
    let p3 := if 0 ≤ i then p2.drop (i + 1).toNat else p2
    if p3 = [] then "/" else String.mk p3

/-! ## The manager -/

/-- The constant `defaultSystemdParent`. -/
def defaultSystemdParent : String := "system.slice"

/-- Modelled from the spec: the constant `crioPrefix`, declared in another file of
the package; the specification's scenarios give the namespace field of a logical
path as `crio` (`"machine.slice:crio:abc123"`). -/
def crioPrefix : String := "crio"

/-- The signal number `unix.SIGPIPE` on Linux. -/
def SIGPIPE : Int := 13

/-- The value of a D-Bus property, as far as this file builds one. -/
inductive Variant where
  | int (n : Int) : Variant
  | strings (l : List String) : Variant
deriving DecidableEq, Repr

/-- The type `systemdDbus.Property`. -/
structure Property where
  Name : String
  Value : Variant
deriving DecidableEq, Repr

/-- The function `systemdDbus.PropAfter`. -/
def PropAfter (units : List String) : Property :=
  { Name := "After", Value := Variant.strings units }

/-- The struct `SystemdManager`. -/
structure SystemdManager where
  memoryPath : String
  memoryMaxFile : String
deriving DecidableEq, Repr

/-- A call made to an effectful collaborator. -/
inductive Call where
  | ExpandSlice (slice : String) : Call
  | verifyCgroupHasEnoughMemory (slicePath memoryPath memoryMaxFile : String) : Call
  | RunUnderSystemdScope (pid : Int) (slice unitName : String) (properties : List Property) : Call
deriving DecidableEq, Repr

/-- The collaborators of the manager that are not part of this file. -/
structure Env where
  /-- The function `systemd.ExpandSlice` of runc's libcontainer. -/
  ExpandSlice : String → Except GoError String
  /-- The package function `verifyCgroupHasEnoughMemory`. -/
  verifyCgroupHasEnoughMemory : String → String → String → Option GoError
  /-- The function `utils.RunUnderSystemdScope`. -/
  RunUnderSystemdScope : Int → String → String → List Property → Option GoError
  /-- The function `filepath.Join`. -/
  filepathJoin : List String → String
  /-- The verb `%q` applied to a string (`strconv.Quote`). -/
  Quote : String → String

/-- The method `SystemdManager.IsSystemd`. -/
def IsSystemd (_m : SystemdManager) : Bool := true

/-- The method `SystemdManager.ContainerCgroupPath`. -/
def ContainerCgroupPath (sbParent containerID : String) : String :=
  let parent := if sbParent ≠ "" then sbParent else defaultSystemdParent
  parent ++ ":" ++ crioPrefix ++ ":" ++ containerID

/-- The method `SystemdManager.ContainerCgroupAbsolutePath`. -/
def ContainerCgroupAbsolutePath (env : Env) (sbParent containerID : String) :
    (String × Option GoError) × List Call :=
  let parent := if sbParent ≠ "" then sbParent else defaultSystemdParent
  match env.ExpandSlice parent with
  | Except.error err =>
    (("", some (Wrapf err
      ("error expanding systemd slice to get container " ++ containerID ++ " stats"))),
      [Call.ExpandSlice parent])
  | Except.ok cgroup =>
    ((env.filepathJoin [cgroup, crioPrefix ++ "-" ++ containerID ++ ".scope"], none),
      [Call.ExpandSlice parent])

/-- The method `SystemdManager.MoveConmonToCgroup`. -/
def MoveConmonToCgroup (env : Env) (cid cgroupParent conmonCgroup : String) (pid : Int) :
    (String × Option GoError) × List Call :=
  let cgroupParent := if HasSuffix conmonCgroup ".slice" then conmonCgroup else cgroupParent
  let conmonUnitName := "crio-conmon-" ++ cid ++ ".scope"
  -- Set the systemd KillSignal to SIGPIPE that conmon ignores.
  let killSignalProp : Property := { Name := "KillSignal", Value := Variant.int SIGPIPE }
  let properties := [killSignalProp, PropAfter ["crio.service"]]
  match env.RunUnderSystemdScope pid cgroupParent conmonUnitName properties with
  | some err =>
    (("", some (Wrapf err "failed to add conmon to systemd sandbox cgroup")),
      [Call.RunUnderSystemdScope pid cgroupParent conmonUnitName properties])
  | none =>
    -- return empty string as path because cgroup cleanup is done by systemd
    (("", none), [Call.RunUnderSystemdScope pid cgroupParent conmonUnitName properties])

/-- The function `convertCgroupFsNameToSystemd`. -/
def convertCgroupFsNameToSystemd (cgroupfsName : String) : String :=
  pathBase cgroupfsName

/-- The method `SystemdManager.SandboxCgroupPath`; the Go results
`(cgParent, cgPath, error)` are the first component. -/
def SandboxCgroupPath (env : Env) (m : SystemdManager) (sbParent sbID : String) :
    (String × String × Option GoError) × List Call :=
  if sbParent = "" then (("", "", none), [])
  else if !HasSuffix (filepathBase sbParent) ".slice" then
    (("", "", some (GoError.errorString
      ("cri-o configured with systemd cgroup manager, but did not receive slice as parent: "
        ++ sbParent))), [])
  else
    let cgParent := convertCgroupFsNameToSystemd sbParent
    match env.ExpandSlice cgParent with
    | Except.error err =>
      (("", "", some (Wrapf err ("expanding systemd slice path for " ++ env.Quote cgParent))),
        [Call.ExpandSlice cgParent])
    | Except.ok slicePath =>
      match env.verifyCgroupHasEnoughMemory slicePath m.memoryPath m.memoryMaxFile with
      | some err =>
        (("", "", some err),
          [Call.ExpandSlice cgParent,
           Call.verifyCgroupHasEnoughMemory slicePath m.memoryPath m.memoryMaxFile])
      | none =>
        let cgPath := cgParent ++ ":" ++ crioPrefix ++ ":" ++ sbID
        ((cgParent, cgPath, none),
          [Call.ExpandSlice cgParent,
           Call.verifyCgroupHasEnoughMemory slicePath m.memoryPath m.memoryMaxFile])

/-! ## Lemmas on the string and path functions -/

theorem data_eq_nil_iff (s : String) : s.data = [] ↔ s = "" := by
  constructor
  · intro h
    exact String.ext h
  · intro h
    rw [h]

theorem LastIndexByte_of_not_mem (c : Char) :
    ∀ l : List Char, c ∉ l → LastIndexByte l c = -1
  | [], _ => rfl
  | x :: xs, h => by
    have hx : ¬ x = c := fun e => h (by simp [e])
    have hxs : c ∉ xs := fun e => h (List.mem_cons_of_mem _ e)
    simp [LastIndexByte, LastIndexByte_of_not_mem c xs hxs, hx]

theorem LastIndexByte_append (c : Char) (s : List Char) (hs : c ∉ s) :
    ∀ p : List Char, LastIndexByte (p ++ c :: s) c = (p.length : Int)
  | [] => by
    simp [LastIndexByte, LastIndexByte_of_not_mem c s hs]
  | x :: xs => by
    have ih := LastIndexByte_append c s hs xs
    have h0 : (0 : Int) ≤ (xs.length : Int) := Int.ofNat_nonneg _
    simp [LastIndexByte, ih, h0]

/-- Either the byte does not occur and the index is `-1`, or the string splits at
its last occurrence and the index is the length of the part before it. -/
theorem LastIndexByte_cases (c : Char) :
    ∀ l : List Char, (c ∉ l ∧ LastIndexByte l c = -1) ∨
      ∃ p s, l = p ++ c :: s ∧ c ∉ s ∧ LastIndexByte l c = (p.length : Int)
  | [] => Or.inl ⟨by simp, rfl⟩
  | x :: xs => by
    rcases LastIndexByte_cases c xs with ⟨hn, _⟩ | ⟨p, s, hl, hs, _⟩
    · by_cases hx : x = c
      · right
        refine ⟨[], xs, by simp [hx], hn, ?_⟩
        have := LastIndexByte_append c xs hn []
        simpa [hx] using this
      · left
        have hmem : c ∉ x :: xs := by
          intro h
          rcases List.mem_cons.1 h with h | h
          · exact hx h.symm
          · exact hn h
        exact ⟨hmem, LastIndexByte_of_not_mem c _ hmem⟩
    · right
      refine ⟨x :: p, s, by simp [hl], hs, ?_⟩
      have := LastIndexByte_append c s hs (x :: p)
      rw [hl]
      simpa using this

theorem lastSeparator_eq : ∀ l : List Char, lastSeparator l = LastIndexByte l '/'
  | [] => rfl
  | x :: xs => by
    simp [lastSeparator, LastIndexByte, lastSeparator_eq xs, IsPathSeparator]

/-- On Linux `filepath.Base` and `path.Base` are the same function. -/
theorem filepathBase_eq_pathBase (path : String) : filepathBase path = pathBase path := by
  simp only [filepathBase, pathBase, VolumeName, List.length_nil, List.drop_zero,
    lastSeparator_eq]
  rfl

theorem stripTrailingSlashes_of_flat_end (p s : List Char) (hne : s ≠ [])
    (hs : '/' ∉ s) : stripTrailingSlashes (p ++ s) = p ++ s := by
  unfold stripTrailingSlashes
  rw [List.rdropWhile_eq_self_iff]
  intro hl
  rw [List.getLast_append_of_ne_nil hne]
  intro h
  have h1 : s.getLast hne = '/' := by simpa using h
  exact hs (h1 ▸ List.getLast_mem hne)

/-- The base of `p/s`, for a non-empty `s` without a slash, is `s`. -/
theorem pathBase_segment (p s : List Char) (hne : s ≠ []) (hs : '/' ∉ s) :
    pathBase (String.mk (p ++ '/' :: s)) = String.mk s := by
  have hstrip : stripTrailingSlashes (p ++ '/' :: s) = p ++ '/' :: s := by
    have := stripTrailingSlashes_of_flat_end (p ++ ['/']) s hne hs
    simpa using this
  have hne0 : String.mk (p ++ '/' :: s) ≠ "" := by
    intro h
    have := congrArg String.data h
    simp at this
  unfold pathBase
  rw [if_neg hne0]
  simp only [hstrip, LastIndexByte_append '/' s hs p]
  have h0 : (0 : Int) ≤ (p.length : Int) := Int.ofNat_nonneg _
  have hdrop : (p ++ '/' :: s).drop ((p.length : Int) + 1).toNat = s := by
    have : ((p.length : Int) + 1).toNat = p.length + 1 := by omega
    rw [this]
    simp
  rw [if_pos h0, hdrop, if_neg hne]

/-- The base of a non-empty string without a slash is the string itself. -/
theorem pathBase_flat (s : List Char) (hne : s ≠ []) (hs : '/' ∉ s) :
    pathBase (String.mk s) = String.mk s := by
  have hstrip : stripTrailingSlashes s = s := by
    have := stripTrailingSlashes_of_flat_end [] s hne hs
    simpa using this
  have hne0 : String.mk s ≠ "" := by
    intro h
    exact hne (congrArg String.data h)
  unfold pathBase
  rw [if_neg hne0]
  simp only [hstrip, LastIndexByte_of_not_mem '/' s hs]
  have hneg : ¬ (0 : Int) ≤ -1 := by decide
  rw [if_neg hneg, if_neg hne]

/-- The three shapes of a base: `.`, `/`, or a non-empty segment without a slash. -/
theorem pathBase_shape (path : String) :
    pathBase path = "." ∨ pathBase path = "/" ∨
      ∃ s : List Char, s ≠ [] ∧ '/' ∉ s ∧ pathBase path = String.mk s := by
  by_cases h0 : path = ""
  · left
    simp [pathBase, h0]
  · right
    unfold pathBase
    rw [if_neg h0]
    rcases LastIndexByte_cases '/' (stripTrailingSlashes path.data) with
      ⟨hn, hi⟩ | ⟨p, s, hl, hs, hi⟩
    · simp only [hi]
      have hneg : ¬ (0 : Int) ≤ -1 := by decide
      rw [if_neg hneg]
      by_cases he : stripTrailingSlashes path.data = []
      · left
        rw [if_pos he]
      · right
        exact ⟨_, he, hn, by rw [if_neg he]⟩
    · simp only [hi]
      have h0 : (0 : Int) ≤ (p.length : Int) := Int.ofNat_nonneg _
      have hdrop : (stripTrailingSlashes path.data).drop ((p.length : Int) + 1).toNat = s := by
        have : ((p.length : Int) + 1).toNat = p.length + 1 := by omega
        rw [this, hl]
        simp
      rw [if_pos h0, hdrop]
      by_cases he : s = []
      · left
        rw [if_pos he]
      · right
        exact ⟨s, he, hs, by rw [if_neg he]⟩

theorem pathBase_idempotent (path : String) : pathBase (pathBase path) = pathBase path := by
  rcases pathBase_shape path with h | h | ⟨s, hne, hs, h⟩
  · rw [h]
    decide
  · rw [h]
    decide
  · rw [h]
    exact pathBase_flat s hne hs

theorem hasSuffix_slice_ne_empty (sbParent : String)
    (h : HasSuffix (filepathBase sbParent) ".slice" = true) : sbParent ≠ "" := by
  intro he
  rw [he] at h
  revert h
  decide

theorem append_data (s t : String) : (s ++ t).data = s.data ++ t.data := rfl

/-- The logical-path suffix `":" ++ crioPrefix ++ ":" ++ id` written with one literal. -/
theorem logical_path_eq (parent id : String) :
    parent ++ ":" ++ crioPrefix ++ ":" ++ id = parent ++ ":crio:" ++ id := by
  apply String.ext
  simp [append_data, crioPrefix]

/-! ## Sample environments -/

/-- The verb `%q` on a string of printable ASCII characters: the string between
double quotes, a double quote or backslash inside it preceded by a backslash. -/
def quotePrintable (s : String) : String :=
  String.mk (Char.ofNat 34 ::
    (s.data.flatMap fun c =>
      if c = Char.ofNat 34 ∨ c = Char.ofNat 92 then [Char.ofNat 92, c] else [c]) ++
    [Char.ofNat 34])

/-- A join of path elements none of which needs cleaning: the elements separated
by `/`. -/
def joinPlain (elems : List String) : String :=
  "/".intercalate elems

/-- A manager for cgroup v1. -/
def sampleManager : SystemdManager :=
  { memoryPath := "/sys/fs/cgroup/memory", memoryMaxFile := "memory.limit_in_bytes" }

/-- An environment in which every slice expands to a directory below the root,
every cgroup has enough memory and every scope launch succeeds. -/
def permissiveEnv : Env :=
  { ExpandSlice := fun slice => Except.ok ("/" ++ slice)
    verifyCgroupHasEnoughMemory := fun _ _ _ => none
    RunUnderSystemdScope := fun _ _ _ _ => none
    filepathJoin := joinPlain
    Quote := quotePrintable }

/-- An environment in which the memory check rejects every cgroup. -/
def lowMemoryEnv : Env :=
  { permissiveEnv with
    verifyCgroupHasEnoughMemory := fun slicePath _ _ =>
      some (GoError.errorString ("not enough memory in cgroup " ++ slicePath)) }

/-- An environment in which slice expansion rejects every name. -/
def rejectingEnv : Env :=
  { permissiveEnv with
    ExpandSlice := fun slice =>
      Except.error (GoError.errorString ("invalid slice name: " ++ slice)) }

/-! ## Logical container paths -/

/-- C1: for a non-empty parent `P` the logical container path is
`P ++ ":" ++ "crio" ++ ":" ++ I`; for the empty parent the default root is
substituted and the path is `"system.slice:crio:" ++ I`. -/
theorem ContainerCgroupPath_spec (I : String) :
    (∀ P : String, P ≠ "" → ContainerCgroupPath P I = P ++ ":" ++ "crio" ++ ":" ++ I) ∧
      ContainerCgroupPath "" I = "system.slice:crio:" ++ I := by
  constructor
  · intro P hP
    simp [ContainerCgroupPath, hP, crioPrefix]
  · show "system.slice" ++ ":" ++ crioPrefix ++ ":" ++ I = "system.slice:crio:" ++ I
    rw [logical_path_eq]
    apply String.ext
    simp [append_data]

/-- The two scenarios of C1: parent `machine.slice` and the empty parent, with
entity `abc123`. -/
theorem ContainerCgroupPath_spec_witness :
    ContainerCgroupPath "machine.slice" "abc123" = "machine.slice:crio:abc123" ∧
      ContainerCgroupPath "" "abc123" = "system.slice:crio:abc123" :=
  ⟨((ContainerCgroupPath_spec "abc123").1 "machine.slice" (by decide)).trans (by decide),
    (ContainerCgroupPath_spec "abc123").2.trans (by decide)⟩

/-! ## Sandbox paths -/

/-- C2: for a non-empty parent whose base does not end in `.slice`,
`SandboxCgroupPath` returns an empty parent, an empty path and an error whose
message ends with the offending parent; it calls neither slice expansion nor the
memory check, so the result is the same in every environment. -/
theorem SandboxCgroupPath_invalid_parent (env : Env) (m : SystemdManager) (P I : String)
    (hne : P ≠ "") (hbase : HasSuffix (filepathBase P) ".slice" = false) :
    SandboxCgroupPath env m P I =
        (("", "", some (GoError.errorString
          ("cri-o configured with systemd cgroup manager, but did not receive slice as parent: "
            ++ P))), []) ∧
      (∃ err, (SandboxCgroupPath env m P I).1.2.2 = some err ∧ P.data <:+: err.Error.data) ∧
      ∀ env2 : Env, SandboxCgroupPath env2 m P I = SandboxCgroupPath env m P I := by
  have key : ∀ e : Env, SandboxCgroupPath e m P I =
      (("", "", some (GoError.errorString
        ("cri-o configured with systemd cgroup manager, but did not receive slice as parent: "
          ++ P))), []) := by
    intro e
    simp [SandboxCgroupPath, hne, hbase]
  refine ⟨key env, ⟨_, by rw [key env], ?_⟩, fun env2 => by rw [key env2, key env]⟩
  exact List.IsSuffix.isInfix ⟨_, rfl⟩

/-- An instance of C2: the parent `kubepods` is not a slice. -/
theorem SandboxCgroupPath_invalid_parent_witness :
    SandboxCgroupPath permissiveEnv sampleManager "kubepods" "abc123" =
      (("", "", some (GoError.errorString
        "cri-o configured with systemd cgroup manager, but did not receive slice as parent: kubepods")),
        []) :=
  (SandboxCgroupPath_invalid_parent permissiveEnv sampleManager "kubepods" "abc123"
    (by decide) (by decide)).1

/-- C3: with the empty parent `SandboxCgroupPath` returns `("", "", nil)` and calls
neither slice expansion nor the memory check, so the result is the same in every
environment. -/
theorem SandboxCgroupPath_empty_parent (env : Env) (m : SystemdManager) (I : String) :
    SandboxCgroupPath env m "" I = (("", "", none), []) ∧
      ∀ env2 : Env, SandboxCgroupPath env2 m "" I = SandboxCgroupPath env m "" I := by
  have key : ∀ e : Env, SandboxCgroupPath e m "" I = (("", "", none), []) := by
    intro e
    simp [SandboxCgroupPath]
  exact ⟨key env, fun env2 => by rw [key env2, key env]⟩

/-- C4: for a parent whose base ends in `.slice` and whose normalized name expands
to `slicePath`, the error returned by `SandboxCgroupPath` is exactly the result of
the memory check of `slicePath` (the same error, not wrapped, or none); when the
check fails the parent and path returned are empty; and the check is the call made
after the expansion, on `slicePath`. -/
theorem SandboxCgroupPath_memory_check (env : Env) (m : SystemdManager)
    (P I slicePath : String)
    (hbase : HasSuffix (filepathBase P) ".slice" = true)
    (hexp : env.ExpandSlice (convertCgroupFsNameToSystemd P) = Except.ok slicePath) :
    (SandboxCgroupPath env m P I).1.2.2 =
        env.verifyCgroupHasEnoughMemory slicePath m.memoryPath m.memoryMaxFile ∧
      (∀ err, env.verifyCgroupHasEnoughMemory slicePath m.memoryPath m.memoryMaxFile = some err →
        (SandboxCgroupPath env m P I).1 = ("", "", some err)) ∧
      (SandboxCgroupPath env m P I).2 =
        [Call.ExpandSlice (convertCgroupFsNameToSystemd P),
         Call.verifyCgroupHasEnoughMemory slicePath m.memoryPath m.memoryMaxFile] := by
  have hne := hasSuffix_slice_ne_empty P hbase
  cases hmem : env.verifyCgroupHasEnoughMemory slicePath m.memoryPath m.memoryMaxFile with
  | none => simp [SandboxCgroupPath, hne, hbase, hexp, hmem]
  | some err => simp [SandboxCgroupPath, hne, hbase, hexp, hmem]

/-- An instance of C4: a nested slice whose memory check fails. -/
theorem SandboxCgroupPath_memory_check_witness :
    (SandboxCgroupPath lowMemoryEnv sampleManager "a.slice/a-b.slice" "abc123").1 =
      ("", "", some (GoError.errorString "not enough memory in cgroup /a-b.slice")) :=
  (SandboxCgroupPath_memory_check lowMemoryEnv sampleManager "a.slice/a-b.slice" "abc123"
    "/a-b.slice" (by decide)
    (congrArg Except.ok (by decide : "/" ++ convertCgroupFsNameToSystemd "a.slice/a-b.slice" = "/a-b.slice"))).2.1
    _ rfl

/-- C5: for a parent `P` whose base ends in `.slice`, when expansion and the memory
check succeed, `SandboxCgroupPath` returns `(N, N ++ ":crio:" ++ I, nil)` for the
normalized parent `N = convertCgroupFsNameToSystemd P`. -/
theorem SandboxCgroupPath_success (env : Env) (m : SystemdManager) (P I slicePath : String)
    (hbase : HasSuffix (filepathBase P) ".slice" = true)
    (hexp : env.ExpandSlice (convertCgroupFsNameToSystemd P) = Except.ok slicePath)
    (hmem : env.verifyCgroupHasEnoughMemory slicePath m.memoryPath m.memoryMaxFile = none) :
    (SandboxCgroupPath env m P I).1 =
      (convertCgroupFsNameToSystemd P, convertCgroupFsNameToSystemd P ++ ":crio:" ++ I, none) := by
  have hne := hasSuffix_slice_ne_empty P hbase
  rw [← logical_path_eq]
  simp [SandboxCgroupPath, hne, hbase, hexp, hmem]

/-- The scenario of C5: the nested parent `test.slice/test-a.slice/test-a-b.slice`
with sandbox `abc123`. -/
theorem SandboxCgroupPath_success_witness :
    (SandboxCgroupPath permissiveEnv sampleManager
        "test.slice/test-a.slice/test-a-b.slice" "abc123").1 =
      ("test-a-b.slice", "test-a-b.slice:crio:abc123", none) :=
  (SandboxCgroupPath_success permissiveEnv sampleManager
    "test.slice/test-a.slice/test-a-b.slice" "abc123"
    ("/" ++ convertCgroupFsNameToSystemd "test.slice/test-a.slice/test-a-b.slice")
    (by decide) rfl rfl).trans (by decide)

/-! ## Supervisor relocation -/

/-- C6: `MoveConmonToCgroup` always returns an empty cleanup path: when the scope
launch succeeds the result is `("", nil)`, whichever of the declared parent and the
hint is the slice, and when the launch fails the path is empty and the error is the
launch error with a message in front of it. -/
theorem MoveConmonToCgroup_cleanup_path_empty (env : Env)
    (cid cgroupParent conmonCgroup : String) (pid : Int) :
    (MoveConmonToCgroup env cid cgroupParent conmonCgroup pid).1.1 = "" ∧
      (env.RunUnderSystemdScope pid
          (if HasSuffix conmonCgroup ".slice" then conmonCgroup else cgroupParent)
          ("crio-conmon-" ++ cid ++ ".scope")
          [{ Name := "KillSignal", Value := Variant.int 13 }, PropAfter ["crio.service"]] = none →
        (MoveConmonToCgroup env cid cgroupParent conmonCgroup pid).1 = ("", none)) ∧
      ∀ err, env.RunUnderSystemdScope pid
          (if HasSuffix conmonCgroup ".slice" then conmonCgroup else cgroupParent)
          ("crio-conmon-" ++ cid ++ ".scope")
          [{ Name := "KillSignal", Value := Variant.int 13 }, PropAfter ["crio.service"]] =
            some err →
        (MoveConmonToCgroup env cid cgroupParent conmonCgroup pid).1 =
          ("", some (Wrapf err "failed to add conmon to systemd sandbox cgroup")) := by
  unfold MoveConmonToCgroup
  simp only [SIGPIPE]
  split <;> rename_i h <;> simp [h]

/-- C7: the scope is launched under the hint when the hint ends in `.slice`,
whatever the declared parent, and under the declared parent otherwise; the empty
hint does not end in `.slice`.  The launch is the only call made. -/
theorem MoveConmonToCgroup_slice (env : Env)
    (cid cgroupParent conmonCgroup : String) (pid : Int) :
    (MoveConmonToCgroup env cid cgroupParent conmonCgroup pid).2 =
        [Call.RunUnderSystemdScope pid
          (if HasSuffix conmonCgroup ".slice" then conmonCgroup else cgroupParent)
          ("crio-conmon-" ++ cid ++ ".scope")
          [{ Name := "KillSignal", Value := Variant.int 13 }, PropAfter ["crio.service"]]] ∧
      HasSuffix "" ".slice" = false ∧
      (MoveConmonToCgroup env cid "other.slice" "machine.slice" pid).2 =
        [Call.RunUnderSystemdScope pid "machine.slice" ("crio-conmon-" ++ cid ++ ".scope")
          [{ Name := "KillSignal", Value := Variant.int 13 }, PropAfter ["crio.service"]]] ∧
      (MoveConmonToCgroup env cid "other.slice" "" pid).2 =
        [Call.RunUnderSystemdScope pid "other.slice" ("crio-conmon-" ++ cid ++ ".scope")
          [{ Name := "KillSignal", Value := Variant.int 13 }, PropAfter ["crio.service"]]] := by
  have key : ∀ parent hint : String, (MoveConmonToCgroup env cid parent hint pid).2 =
      [Call.RunUnderSystemdScope pid (if HasSuffix hint ".slice" then hint else parent)
        ("crio-conmon-" ++ cid ++ ".scope")
        [{ Name := "KillSignal", Value := Variant.int 13 }, PropAfter ["crio.service"]]] := by
    intro parent hint
    unfold MoveConmonToCgroup
    simp only [SIGPIPE]
    split <;> rfl
  refine ⟨key _ _, by decide, ?_, ?_⟩
  · rw [key]
    have h : HasSuffix "machine.slice" ".slice" = true := by decide
    rw [if_pos h]
  · rw [key]
    have h : ¬ HasSuffix "" ".slice" = true := by decide
    rw [if_neg h]

/-! ## Slice-name normalization -/

/-- C8: normalization returns the final path segment verbatim: for every `p` and
every non-empty `s` without a slash, `convertCgroupFsNameToSystemd (p ++ "/" ++ s) = s`. -/
theorem convertCgroupFsNameToSystemd_last_segment (p s : String)
    (hne : s ≠ "") (hs : '/' ∉ s.data) :
    convertCgroupFsNameToSystemd (p ++ "/" ++ s) = s := by
  have hd : s.data ≠ [] := fun h => hne ((data_eq_nil_iff s).1 h)
  have hcat : p ++ "/" ++ s = String.mk (p.data ++ '/' :: s.data) := by
    apply String.ext
    simp [append_data]
  unfold convertCgroupFsNameToSystemd
  rw [hcat, pathBase_segment p.data s.data hd hs]

/-- The scenario of C8: `test.slice/test-a.slice/test-a-b.slice` normalizes to
`test-a-b.slice`. -/
theorem convertCgroupFsNameToSystemd_last_segment_witness :
    convertCgroupFsNameToSystemd "test.slice/test-a.slice/test-a-b.slice" = "test-a-b.slice" :=
  convertCgroupFsNameToSystemd_last_segment "test.slice/test-a.slice" "test-a-b.slice"
    (by decide) (by decide)

/-- C9: normalization is idempotent, and a non-empty name without a slash is
returned unchanged. -/
theorem convertCgroupFsNameToSystemd_idempotent :
    (∀ s : String, convertCgroupFsNameToSystemd (convertCgroupFsNameToSystemd s) =
        convertCgroupFsNameToSystemd s) ∧
      ∀ s : String, s ≠ "" → '/' ∉ s.data → convertCgroupFsNameToSystemd s = s := by
  constructor
  · intro s
    exact pathBase_idempotent s
  · intro s hne hs
    have hd : s.data ≠ [] := fun h => hne ((data_eq_nil_iff s).1 h)
    exact pathBase_flat s.data hd hs

/-- An instance of C9: the flat name `test-a-b.slice` is a fixed point, also when
reached from the nested path. -/
theorem convertCgroupFsNameToSystemd_idempotent_witness :
    convertCgroupFsNameToSystemd "test-a-b.slice" = "test-a-b.slice" ∧
      convertCgroupFsNameToSystemd
          (convertCgroupFsNameToSystemd "test.slice/test-a.slice/test-a-b.slice") =
        convertCgroupFsNameToSystemd "test.slice/test-a.slice/test-a-b.slice" :=
  ⟨convertCgroupFsNameToSystemd_idempotent.2 "test-a-b.slice" (by decide) (by decide),
    convertCgroupFsNameToSystemd_idempotent.1 "test.slice/test-a.slice/test-a-b.slice"⟩

/-! ## Failure of slice expansion -/

/-- C10, as the code has it: when slice expansion fails, the operation returns
empty strings and the expansion error with a message in front of it.  For
`ContainerCgroupAbsolutePath` the name expanded is the parent, or `system.slice`
for the empty parent, and the message contains the container ID.  For
`SandboxCgroupPath`, on a parent whose base ends in `.slice`, the message is
`expanding systemd slice path for` followed by the quoted normalized parent. -/
theorem expansion_failure_is_wrapped (env : Env) (m : SystemdManager) (P I : String)
    (err : GoError) :
    (env.ExpandSlice (if P ≠ "" then P else "system.slice") = Except.error err →
        ContainerCgroupAbsolutePath env P I =
            (("", some (Wrapf err
              ("error expanding systemd slice to get container " ++ I ++ " stats"))),
              [Call.ExpandSlice (if P ≠ "" then P else "system.slice")]) ∧
          I.data <:+: (Wrapf err
            ("error expanding systemd slice to get container " ++ I ++ " stats")).Error.data ∧
          (Wrapf err
            ("error expanding systemd slice to get container " ++ I ++ " stats")).Cause =
              err.Cause) ∧
      (HasSuffix (filepathBase P) ".slice" = true →
        env.ExpandSlice (convertCgroupFsNameToSystemd P) = Except.error err →
        SandboxCgroupPath env m P I =
          (("", "", some (Wrapf err
            ("expanding systemd slice path for " ++ env.Quote (convertCgroupFsNameToSystemd P)))),
            [Call.ExpandSlice (convertCgroupFsNameToSystemd P)])) := by
  constructor
  · intro hexp
    refine ⟨?_, ?_, rfl⟩
    · unfold ContainerCgroupAbsolutePath
      simp only [defaultSystemdParent]
      rw [hexp]
    · refine ⟨"error expanding systemd slice to get container ".data,
        (" stats" ++ ": " ++ err.Error).data, ?_⟩
      simp [Wrapf, GoError.Error, append_data]
  · intro hbase hexp
    have hne := hasSuffix_slice_ne_empty P hbase
    simp [SandboxCgroupPath, hne, hbase, hexp]

/-- An instance of C10 as amended: the name `test--a.slice` is rejected by the
expansion, for a container and for a sandbox. -/
theorem expansion_failure_is_wrapped_witness :
    ContainerCgroupAbsolutePath rejectingEnv "test--a.slice" "abc123" =
        (("", some (GoError.withMessage
          (GoError.errorString "invalid slice name: test--a.slice")
          "error expanding systemd slice to get container abc123 stats")),
          [Call.ExpandSlice "test--a.slice"]) ∧
      SandboxCgroupPath rejectingEnv sampleManager "test--a.slice" "abc123" =
        (("", "", some (GoError.withMessage
          (GoError.errorString "invalid slice name: test--a.slice")
          ("expanding systemd slice path for " ++ quotePrintable "test--a.slice"))),
          [Call.ExpandSlice "test--a.slice"]) :=
  ⟨((expansion_failure_is_wrapped rejectingEnv sampleManager "test--a.slice" "abc123"
      (GoError.errorString "invalid slice name: test--a.slice")).1 rfl).1,
    (expansion_failure_is_wrapped rejectingEnv sampleManager "test--a.slice" "abc123"
      (GoError.errorString "invalid slice name: test--a.slice")).2 (by decide) rfl⟩

/-- C10 fails for `SandboxCgroupPath`: with the parent `test--a.slice`, whose
expansion is rejected, and the sandbox `abc123`, the call fails with empty strings
and an error that wraps the expansion error, but the message names the parent and
does not contain the sandbox ID. -/
theorem SandboxCgroupPath_expansion_error_omits_id :
    rejectingEnv.ExpandSlice (convertCgroupFsNameToSystemd "test--a.slice") =
        Except.error (GoError.errorString "invalid slice name: test--a.slice") ∧
      ∃ err, (SandboxCgroupPath rejectingEnv sampleManager "test--a.slice" "abc123").1 =
          ("", "", some err) ∧
        err.Error =
          "expanding systemd slice path for \"test--a.slice\": invalid slice name: test--a.slice" ∧
        ¬ "abc123".data <:+: err.Error.data :=
  ⟨rfl, GoError.withMessage (GoError.errorString "invalid slice name: test--a.slice")
      ("expanding systemd slice path for " ++ quotePrintable "test--a.slice"),
    by decide, by decide, by decide⟩

end Cgmgr
